import Mathlib

/-!
Verification of the notebook lint engine (`nbcelltests/lint.py`).

The Python module is shallowly embedded below:
* `LintMessage` / `LintType` mirror the structured messages produced by
  every rule function.
* The six rule functions (`lint_lines_per_cell`, `lint_cells_per_notebook`,
  `lint_function_definitions`, `lint_class_definitions`, `lint_kernelspec`,
  `lint_magics`) are direct translations; the ones that can raise a Python
  exception return `Except String`.
* The orchestrator `run` works on an explicit dictionary (`Dict`) of
  extracted metadata merged with caller rules, mirrors the noqa-removal
  step, dispatches the six rule blocks in the source order and finally the
  external-linter block.  The subprocess is abstracted by its captured
  stdout/stderr text (the code ignores the exit status), and the temp-file
  path by a string parameter.  The in-place mutation of the caller's
  `executable` list is made observable by returning the final value of that
  list as the third component of the result.
-/

deriving instance DecidableEq for Except

inductive LintType
  | LINES_PER_CELL
  | CELLS_PER_NOTEBOOK
  | FUNCTION_DEFINITIONS
  | CLASS_DEFINITIONS
  | KERNELSPEC
  | MAGICS
  | LINTER
  deriving DecidableEq

structure LintMessage where
  cell : Int
  message : String
  type : LintType
  passed : Bool
  deriving DecidableEq

/-- Python `str` repr with single quotes (apostrophes written as escapes). -/
def pyStrRepr (s : String) : String := "\x27" ++ s ++ "\x27"

/-- `s.strip()`: leading and trailing whitespace removed. -/
def pyStrip (s : String) : String :=
  String.mk (((s.data.dropWhile Char.isWhitespace).reverse.dropWhile Char.isWhitespace).reverse)

/-- `set(xs)` : duplicates removed, first occurrence kept as canonical order. -/
def pySet (xs : List String) : List String :=
  xs.foldl (fun acc x => if acc.contains x then acc else acc ++ [x]) []

/-- Rendering of a set of strings, as interpolated into messages. -/
def pySetRepr (xs : List String) : String :=
  "\x7b" ++ String.intercalate ", " (xs.map pyStrRepr) ++ "\x7d"

/-- Rendering of a string-to-string dict, as interpolated into messages. -/
def pyDictRepr (m : List (String × String)) : String :=
  "\x7b" ++ String.intercalate ", "
    (m.map (fun p => pyStrRepr p.1 ++ ": " ++ pyStrRepr p.2)) ++ "\x7d"

/-- `set(a) - set(b)` on string sets. -/
def setDiff (a b : List String) : List String :=
  (pySet a).filter (fun x => !(b.contains x))

/-- `set(a) & set(b)` on string sets. -/
def setInter (a b : List String) : List String :=
  (pySet a).filter (fun x => b.contains x)

def lint_lines_per_cell (cell_lines : List Int) (max_lines_per_cell : Int := -1) :
    List LintMessage × Bool :=
  if max_lines_per_cell < 0 then ([], true)
  else
    let ret := cell_lines.enum.map (fun p =>
      { cell := (p.1 : Int) + 1,
        message := "Checking lines in cell (max=" ++ toString max_lines_per_cell ++
          "; actual=" ++ toString p.2 ++ ")",
        type := LintType.LINES_PER_CELL,
        passed := decide (p.2 ≤ max_lines_per_cell) })
    (ret, ret.all (fun x => x.passed))

def lint_cells_per_notebook (cell_count : Int) (max_cells_per_notebook : Int := -1) :
    List LintMessage × Bool :=
  if max_cells_per_notebook < 0 then ([], true)
  else
    let passed := decide (cell_count ≤ max_cells_per_notebook)
    ([{ cell := -1,
        message := "Checking cells per notebook (max=" ++ toString max_cells_per_notebook ++
          "; actual=" ++ toString cell_count ++ ")",
        type := LintType.CELLS_PER_NOTEBOOK, passed := passed }], passed)

def lint_function_definitions (functions : Int) (max_function_definitions : Int := -1) :
    List LintMessage × Bool :=
  if max_function_definitions < 0 then ([], true)
  else
    let passed := decide (functions ≤ max_function_definitions)
    ([{ cell := -1,
        message := "Checking functions per notebook (max=" ++ toString max_function_definitions ++
          "; actual=" ++ toString functions ++ ")",
        type := LintType.FUNCTION_DEFINITIONS, passed := passed }], passed)

def lint_class_definitions (classes : Int) (max_class_definitions : Int := -1) :
    List LintMessage × Bool :=
  if max_class_definitions < 0 then ([], true)
  else
    let passed := decide (classes ≤ max_class_definitions)
    ([{ cell := -1,
        message := "Checking classes per notebook (max=" ++ toString max_class_definitions ++
          "; actual=" ++ toString classes ++ ")",
        type := LintType.CLASS_DEFINITIONS, passed := passed }], passed)

/-- The `kernelspec_requirements` argument: Python `False`, `None`, or a dict. -/
inductive KSReq
  | pyFalse
  | pyNone
  | mapping (m : List (String × String))
  deriving DecidableEq

/-- `set(ks.items()).issuperset(req.items())`. -/
def itemsSuperset (ks req : List (String × String)) : Bool :=
  req.all (fun p => decide (p ∈ ks))

def lint_kernelspec (kernelspec : List (String × String))
    (kernelspec_requirements : KSReq := KSReq.pyFalse) :
    Except String (List LintMessage × Bool) :=
  match kernelspec_requirements with
  | KSReq.pyFalse => Except.ok ([], true)
  | KSReq.pyNone =>
    Except.error "AttributeError: \x27NoneType\x27 object has no attribute \x27items\x27"
  | KSReq.mapping req =>
    let passed := itemsSuperset kernelspec req
    let m : LintMessage :=
      { cell := -1,
        message := "Checking kernelspec (min. required=" ++ pyDictRepr req ++
          "; actual=" ++ pyDictRepr kernelspec ++ ")",
        type := LintType.KERNELSPEC, passed := passed }
    Except.ok ([m], passed)

def lint_magics (magics : List String) (whitelist : Option (List String) := none)
    (blacklist : Option (List String) := none) : Except String (List LintMessage × Bool) :=
  match whitelist, blacklist with
  | none, none => Except.ok ([], true)
  | some wl, some bl =>
    Except.error ("ValueError: Must specify either a whitelist or a blacklist, not both. Blacklist: " ++
      pySetRepr (pySet bl) ++ "; whitelist: " ++ pySetRepr (pySet wl))
  | some wl, none =>
    let bad := setDiff magics wl
    let passed := bad.isEmpty
    let m : LintMessage :=
      { cell := -1,
        message := "Checking magics" ++
          (if bad.isEmpty then "" else " (missing from whitelist: " ++ pySetRepr bad ++ ")"),
        type := LintType.MAGICS, passed := passed }
    Except.ok ([m], passed)
  | none, some bl =>
    let bad := setInter magics bl
    let passed := bad.isEmpty
    let m : LintMessage :=
      { cell := -1,
        message := "Checking magics" ++
          (if bad.isEmpty then "" else " (present in blacklist: " ++ pySetRepr bad ++ ")"),
        type := LintType.MAGICS, passed := passed }
    Except.ok ([m], passed)

/-- Values stored in the metadata dictionary handled by `run`. -/
inductive MetaVal
  | int (n : Int)
  | intList (l : List Int)
  | strSet (l : List String)
  | strMap (m : List (String × String))
  | pyFalse
  | pyNone
  deriving DecidableEq

/-- The Python metadata dictionary, up to lookup semantics. -/
abbrev Dict := List (String × MetaVal)

def dFind : Dict → String → Option MetaVal
  | [], _ => none
  | e :: rest, k => if e.1 = k then some e.2 else dFind rest k

/-- `k in d`. -/
def dMem (d : Dict) (k : String) : Bool := (dFind d k).isSome

/-- `d[k]`, raising `KeyError` when absent. -/
def dGet (d : Dict) (k : String) : Except String MetaVal :=
  match dFind d k with
  | some v => Except.ok v
  | none => Except.error ("KeyError: " ++ pyStrRepr k)

/-- `del d[k]` (total: removes every binding of `k`). -/
def dDel : Dict → String → Dict
  | [], _ => []
  | e :: rest, k => if e.1 = k then dDel rest k else e :: dDel rest k

/-- `d[k] = v`. -/
def dSet (d : Dict) (k : String) (v : MetaVal) : Dict := (k, v) :: dDel d k

/-- `d.update(r)`: bindings of `r` win. -/
def dUpdate (d : Dict) (r : Dict) : Dict := r.foldl (fun acc e => dSet acc e.1 e.2) d

def MetaVal.asInt : MetaVal → Except String Int
  | MetaVal.int n => Except.ok n
  | _ => Except.error "TypeError: an int was expected"

def MetaVal.asIntList : MetaVal → Except String (List Int)
  | MetaVal.intList l => Except.ok l
  | _ => Except.error "TypeError: a list of ints was expected"

def MetaVal.asStrSet : MetaVal → Except String (List String)
  | MetaVal.strSet l => Except.ok l
  | _ => Except.error "TypeError: a set of strings was expected"

def MetaVal.asStrMap : MetaVal → Except String (List (String × String))
  | MetaVal.strMap m => Except.ok m
  | _ => Except.error "TypeError: a dict was expected"

def MetaVal.asKSReq : MetaVal → Except String KSReq
  | MetaVal.pyFalse => Except.ok KSReq.pyFalse
  | MetaVal.pyNone => Except.ok KSReq.pyNone
  | MetaVal.strMap m => Except.ok (KSReq.mapping m)
  | _ => Except.error "TypeError: False, None or a dict was expected"

/-- `d.get(k, None)` followed by use as a set (when present). -/
def optStrSet : Option MetaVal → Except String (Option (List String))
  | none => Except.ok none
  | some v => (MetaVal.asStrSet v).map some

/-- Accumulator of `run`: the message list `ret` and the `passed` flag. -/
abbrev LintAcc := List LintMessage × Bool

def step_lines_per_cell (extra : Dict) (acc : LintAcc) : Except String LintAcc :=
  if dMem extra "lines_per_cell" then do
    let mv ← dGet extra "lines_per_cell"
    let maxLines ← mv.asInt
    let cv ← dGet extra "cell_lines"
    let cellLines ← cv.asIntList
    let r := lint_lines_per_cell cellLines maxLines
    pure (acc.1 ++ r.1, acc.2 && r.2)
  else pure acc

def step_cells_per_notebook (extra : Dict) (acc : LintAcc) : Except String LintAcc :=
  if dMem extra "cells_per_notebook" then do
    let mv ← dGet extra "cells_per_notebook"
    let maxCells ← mv.asInt
    let cv ← dGet extra "cell_count"
    let cellCount ← cv.asInt
    let r := lint_cells_per_notebook cellCount maxCells
    pure (acc.1 ++ r.1, acc.2 && r.2)
  else pure acc

def step_function_definitions (extra : Dict) (acc : LintAcc) : Except String LintAcc :=
  if dMem extra "function_definitions" then do
    let mv ← dGet extra "function_definitions"
    let maxFuncs ← mv.asInt
    let cv ← dGet extra "functions"
    let funcs ← cv.asInt
    let r := lint_function_definitions funcs maxFuncs
    pure (acc.1 ++ r.1, acc.2 && r.2)
  else pure acc

def step_class_definitions (extra : Dict) (acc : LintAcc) : Except String LintAcc :=
  if dMem extra "class_definitions" then do
    let mv ← dGet extra "class_definitions"
    let maxClasses ← mv.asInt
    let cv ← dGet extra "classes"
    let classes ← cv.asInt
    let r := lint_class_definitions classes maxClasses
    pure (acc.1 ++ r.1, acc.2 && r.2)
  else pure acc

def step_kernelspec (extra : Dict) (acc : LintAcc) : Except String LintAcc :=
  if dMem extra "kernelspec_requirements" then do
    let kv ← dGet extra "kernelspec"
    let ks ← kv.asStrMap
    let rv ← dGet extra "kernelspec_requirements"
    let req ← rv.asKSReq
    let r ← lint_kernelspec ks req
    pure (acc.1 ++ r.1, acc.2 && r.2)
  else pure acc

def step_magics (extra : Dict) (acc : LintAcc) : Except String LintAcc :=
  if dMem extra "magics_whitelist" || dMem extra "magics_blacklist" then do
    let mv ← dGet extra "magics"
    let magics ← mv.asStrSet
    let wl ← optStrSet (dFind extra "magics_whitelist")
    let bl ← optStrSet (dFind extra "magics_blacklist")
    let r ← lint_magics magics wl bl
    pure (acc.1 ++ r.1, acc.2 && r.2)
  else pure acc

/-- The six rule blocks of `run`, in the source order. -/
def runRules (extra : Dict) : Except String LintAcc := do
  let acc0 : LintAcc := ([], true)
  let acc1 ← step_lines_per_cell extra acc0
  let acc2 ← step_cells_per_notebook extra acc1
  let acc3 ← step_function_definitions extra acc2
  let acc4 ← step_class_definitions extra acc3
  let acc5 ← step_kernelspec extra acc4
  step_magics extra acc5

/-- The merge/noqa prefix of `run`: `extra_metadata.update(rules)`, then
removal of every key of the merged dict that also sits in its noqa set. -/
def mergedConfig (extra0 : Dict) (rules? : Option Dict) : Except String Dict := do
  let rules := rules?.getD []
  let extra1 := dUpdate extra0 rules
  let nv ← dGet extra1 "noqa"
  let noqa ← nv.asStrSet
  let toRemove := noqa.filter (fun r => dMem extra1 r)
  pure (toRemove.foldl dDel extra1)

/-- The rule blocks followed by the external-linter block of `run`.
`tfName` is the temp-file path, `stdout`/`stderr` the captured subprocess
output; the third result component is the final value of the caller's
`executable` list (the code appends `tfName` to it in place). -/
def runFromConfig (extra : Dict) (executable : List String)
    (tfName stdout stderr : String) :
    Except String (List LintMessage × Bool × List String) := do
  let (ret, passed) ← runRules extra
  if executable.isEmpty then
    pure (ret, passed, executable)
  else
    let executable2 := executable ++ [tfName]
    let msg := stdout ++ "\t" ++ stderr
    let m : LintMessage :=
      { cell := -1, message := "Checking lint:\n" ++ pyStrip msg,
        type := LintType.LINTER, passed := decide (pyStrip msg = "") }
    pure (ret ++ [m], passed, executable2)

/-- `run(notebook, executable, rules, noqa_regex)`: `extra0` stands for the
metadata extracted from the notebook, `rules?` for the caller's `rules`
argument (`none` = Python `None`). -/
def run (extra0 : Dict) (rules? : Option Dict) (executable : List String)
    (tfName stdout stderr : String) :
    Except String (List LintMessage × Bool × List String) := do
  let extra ← mergedConfig extra0 rules?
  runFromConfig extra executable tfName stdout stderr

example : lint_lines_per_cell [2, 9] 3 =
    ([{ cell := 1, message := "Checking lines in cell (max=3; actual=2)",
        type := LintType.LINES_PER_CELL, passed := true },
      { cell := 2, message := "Checking lines in cell (max=3; actual=9)",
        type := LintType.LINES_PER_CELL, passed := false }], false) := by decide

example : (run [("noqa", MetaVal.strSet [])] none ["flake8"] "/tmp/t1.py" "" "") =
    Except.ok ([LintMessage.mk (-1) "Checking lint:\n" LintType.LINTER true], true,
      ["flake8", "/tmp/t1.py"]) := by decide

theorem all_map_general {α β : Type} (f : α → β) (p : β → Bool) (l : List α) :
    (l.map f).all p = l.all (fun a => p (f a)) := by
  induction l with
  | nil => rfl
  | cons a l ih => simp [List.all_cons, ih]

/-- Claim C1 (code bug): with `kernelspec_requirements = None` the code calls
`None.items()` and raises `AttributeError` for every kernelspec — including the
empty one — instead of checking that the kernelspec is empty as its own
docstring promises. -/
theorem kernelspec_none_requirement_raises :
    lint_kernelspec [] KSReq.pyNone =
      Except.error "AttributeError: \x27NoneType\x27 object has no attribute \x27items\x27" ∧
    lint_kernelspec [("a", "1")] KSReq.pyNone =
      Except.error "AttributeError: \x27NoneType\x27 object has no attribute \x27items\x27" :=
  ⟨rfl, rfl⟩

/-- Claim C4: for every negative threshold each of the four numeric rules
returns the empty message list and overall passed = true, whatever the
actual values are. -/
theorem negative_threshold_disables_rules (t : Int) (ht : t < 0)
    (cell_lines : List Int) (cell_count functions classes : Int) :
    lint_lines_per_cell cell_lines t = ([], true) ∧
    lint_cells_per_notebook cell_count t = ([], true) ∧
    lint_function_definitions functions t = ([], true) ∧
    lint_class_definitions classes t = ([], true) := by
  refine ⟨?_, ?_, ?_, ?_⟩ <;>
    simp [lint_lines_per_cell, lint_cells_per_notebook, lint_function_definitions,
      lint_class_definitions, ht]

theorem negative_threshold_disables_rules_witness :
    (-1 : Int) < 0 ∧
    (lint_lines_per_cell [3, 500] (-1) = ([], true) ∧
     lint_cells_per_notebook 7 (-1) = ([], true) ∧
     lint_function_definitions 4 (-1) = ([], true) ∧
     lint_class_definitions 2 (-1) = ([], true)) :=
  ⟨by decide, negative_threshold_disables_rules (-1) (by decide) [3, 500] 7 4 2⟩

/-- Claim C5: for a non-negative threshold, `lint_lines_per_cell` produces one
message per cell; the message at 0-based position `i` carries cell index
`i + 1` and passed = (count ≤ threshold); the overall flag is the conjunction
of the per-cell flags (true for the empty sequence). -/
theorem lines_per_cell_messages (cell_lines : List Int) (t : Int) (ht : 0 ≤ t) :
    (lint_lines_per_cell cell_lines t).1.length = cell_lines.length ∧
    (∀ (i : Nat) (hi : i < cell_lines.length)
        (hm : i < (lint_lines_per_cell cell_lines t).1.length),
      ((lint_lines_per_cell cell_lines t).1.get ⟨i, hm⟩).cell = (i : Int) + 1 ∧
      ((lint_lines_per_cell cell_lines t).1.get ⟨i, hm⟩).passed =
        decide (cell_lines.get ⟨i, hi⟩ ≤ t)) ∧
    (lint_lines_per_cell cell_lines t).2 = cell_lines.all (fun n => decide (n ≤ t)) := by
  have hneg : ¬ (t < 0) := not_lt.mpr ht
  refine ⟨?_, ?_, ?_⟩
  · simp [lint_lines_per_cell, hneg]
  · intro i hi hm
    constructor
    · simp [lint_lines_per_cell, hneg, List.get_eq_getElem, List.getElem_map,
        List.getElem_enum]
    · simp [lint_lines_per_cell, hneg, List.get_eq_getElem, List.getElem_map,
        List.getElem_enum]
  · simp only [lint_lines_per_cell, if_neg hneg]
    conv_rhs => rw [← List.enum_map_snd cell_lines]
    rw [all_map_general, all_map_general]

theorem lines_per_cell_messages_witness :
    (0 : Int) ≤ 3 ∧ (lint_lines_per_cell [2, 9] 3).1.length = 2 ∧
    (lint_lines_per_cell [2, 9] 3).2 = false := by
  refine ⟨by decide, ?_, ?_⟩
  · exact (lines_per_cell_messages [2, 9] 3 (by decide)).1
  · exact ((lines_per_cell_messages [2, 9] 3 (by decide)).2.2).trans (by decide)

/-- Claim C6: with a mapping requirement, `lint_kernelspec` produces exactly
one message with cell index -1, passing iff every key/value pair of the
requirement occurs (with equal value) in the kernelspec. -/
theorem kernelspec_mapping_superset (ks req : List (String × String)) :
    ∃ m : LintMessage,
      lint_kernelspec ks (KSReq.mapping req) = Except.ok ([m], m.passed) ∧
      m.cell = -1 ∧
      (m.passed = true ↔ ∀ p ∈ req, p ∈ ks) := by
  refine ⟨_, rfl, rfl, ?_⟩
  simp [lint_kernelspec, itemsSuperset, List.all_eq_true]

/-- Claim C7: `lint_magics` fails with an error exactly when both a whitelist
and a blacklist are supplied; with neither it returns no message and passed =
true; in every other case it returns normally. -/
theorem magics_error_iff_both (magics : List String) (wl bl : Option (List String)) :
    ((∃ e, lint_magics magics wl bl = Except.error e) ↔
      wl.isSome = true ∧ bl.isSome = true) ∧
    lint_magics magics none none = Except.ok ([], true) := by
  refine ⟨?_, rfl⟩
  cases wl <;> cases bl <;> simp [lint_magics]

/-- Claim C8: in whitelist mode the failing set is `magics - whitelist`, in
blacklist mode it is `magics ∩ blacklist`; one message is produced, passing
iff the failing set is empty, and the failing set is embedded in the message
text when non-empty. -/
theorem magics_failing_sets (magics w b : List String) :
    (∃ m : LintMessage,
      lint_magics magics (some w) none = Except.ok ([m], m.passed) ∧
      (m.passed = true ↔ setDiff magics w = []) ∧
      m.message = "Checking magics" ++
        (if (setDiff magics w).isEmpty then ""
         else " (missing from whitelist: " ++ pySetRepr (setDiff magics w) ++ ")")) ∧
    (∃ m : LintMessage,
      lint_magics magics none (some b) = Except.ok ([m], m.passed) ∧
      (m.passed = true ↔ setInter magics b = []) ∧
      m.message = "Checking magics" ++
        (if (setInter magics b).isEmpty then ""
         else " (present in blacklist: " ++ pySetRepr (setInter magics b) ++ ")")) := by
  constructor
  · exact ⟨_, rfl, by simp [lint_magics, List.isEmpty_iff], rfl⟩
  · exact ⟨_, rfl, by simp [lint_magics, List.isEmpty_iff], rfl⟩

theorem except_bind_ok {α β : Type} (a : α) (f : α → Except String β) :
    (Except.ok a >>= f) = f a := rfl

theorem except_bind_error {α β : Type} (e : String) (f : α → Except String β) :
    ((Except.error e : Except String α) >>= f) = Except.error e := rfl

theorem except_pure {α : Type} (a : α) : (pure a : Except String α) = Except.ok a := rfl

theorem except_error_ne_ok {α : Type} (e : String) (b : α) :
    (Except.error e : Except String α) ≠ Except.ok b := fun hh => Except.noConfusion hh

theorem bind_eq_ok {α β : Type} {x : Except String α} {f : α → Except String β} {b : β}
    (h : (x >>= f) = Except.ok b) : ∃ a, x = Except.ok a ∧ f a = Except.ok b := by
  cases x with
  | error err => rw [except_bind_error] at h; exact absurd h (except_error_ne_ok err b)
  | ok a => exact ⟨a, rfl, by rwa [except_bind_ok] at h⟩

/-- Claim C2 counterexample: the caller's `executable` list after `run` returns
is not the list that was passed in — the temp-file path has been appended to
it in place. -/
theorem run_executable_retained_counterexample :
    (run [("noqa", MetaVal.strSet [])] none ["flake8", "--ignore=W391"]
        "/tmp/tmp1.py" "" "") =
      Except.ok ([LintMessage.mk (-1) "Checking lint:\n" LintType.LINTER true], true,
        ["flake8", "--ignore=W391", "/tmp/tmp1.py"]) ∧
    (["flake8", "--ignore=W391", "/tmp/tmp1.py"] : List String) ≠
      ["flake8", "--ignore=W391"] :=
  ⟨by decide, by decide⟩

/-- Claim C2 (amended): when an executable is supplied and `run` returns
normally, the caller's command list afterwards is the original list with the
temp-file path appended (the in-place `executable.append(tf_name)` is
retained), so a second call with the same list would invoke a different
command. -/
theorem run_appends_tempfile_to_executable
    (extra0 : Dict) (rules? : Option Dict) (e : List String) (tf o s : String)
    (he : e ≠ []) (msgs : List LintMessage) (p : Bool) (exe : List String)
    (h : run extra0 rules? e tf o s = Except.ok (msgs, p, exe)) :
    exe = e ++ [tf] := by
  unfold run at h
  obtain ⟨d, hm, h⟩ := bind_eq_ok h
  unfold runFromConfig at h
  obtain ⟨acc, hr, h⟩ := bind_eq_ok h
  obtain ⟨ret, passed⟩ := acc
  dsimp only at h
  have hne : ¬ (e.isEmpty = true) := fun hh => he (List.isEmpty_iff.mp hh)
  rw [if_neg hne, except_pure] at h
  injection h with h2
  have h3 := congrArg (fun r => r.2.2) h2
  exact h3.symm

theorem run_appends_tempfile_to_executable_witness :
    (["flake8"] : List String) ≠ [] ∧
    (["flake8", "/tmp/t1.py"] : List String) = ["flake8"] ++ ["/tmp/t1.py"] :=
  ⟨by decide,
   run_appends_tempfile_to_executable [("noqa", MetaVal.strSet [])] none ["flake8"]
     "/tmp/t1.py" "" "" (by decide)
     [LintMessage.mk (-1) "Checking lint:\n" LintType.LINTER true] true
     ["flake8", "/tmp/t1.py"] (by decide)⟩

/-- Claim C10: the overall boolean of `run` comes from the six rule blocks
only — it is the same whether or not the external linter runs and whatever
the linter prints — and a run can return overall passed = true while its
message list holds a failing LINTER message. -/
theorem run_passed_excludes_linter (extra0 : Dict) (rules? : Option Dict)
    (e : List String) (tf o s : String) :
    ((run extra0 rules? e tf o s).map (fun r => r.2.1) =
      (run extra0 rules? [] tf "" "").map (fun r => r.2.1)) ∧
    (∃ msgs m exe,
      run [("noqa", MetaVal.strSet [])] none ["flake8"] "/tmp/t2.py" "E501" "" =
        Except.ok (msgs, true, exe) ∧
      m ∈ msgs ∧ m.type = LintType.LINTER ∧ m.passed = false) := by
  constructor
  · unfold run
    cases hm : mergedConfig extra0 rules? with
    | error err => rfl
    | ok d =>
      rw [except_bind_ok, except_bind_ok]
      unfold runFromConfig
      cases hr : runRules d with
      | error err => rfl
      | ok acc =>
        rw [except_bind_ok, except_bind_ok]
        obtain ⟨ret, passed⟩ := acc
        dsimp only
        by_cases he : e.isEmpty = true <;>
          simp [he, except_pure, Except.map]
  · refine ⟨[LintMessage.mk (-1) "Checking lint:\nE501" LintType.LINTER false],
      LintMessage.mk (-1) "Checking lint:\nE501" LintType.LINTER false,
      ["flake8", "/tmp/t2.py"], by decide, by decide, rfl, rfl⟩

theorem lint_lines_per_cell_types (cl : List Int) (t : Int) :
    ∀ m ∈ (lint_lines_per_cell cl t).1, m.type = LintType.LINES_PER_CELL := by
  intro m hm
  unfold lint_lines_per_cell at hm
  split at hm
  · simp at hm
  · simp only [List.mem_map] at hm
    obtain ⟨p, _, rfl⟩ := hm
    rfl

theorem lint_cells_per_notebook_types (c t : Int) :
    ∀ m ∈ (lint_cells_per_notebook c t).1, m.type = LintType.CELLS_PER_NOTEBOOK := by
  intro m hm
  unfold lint_cells_per_notebook at hm
  split at hm
  · simp at hm
  · simp at hm
    rw [hm]

theorem lint_function_definitions_types (c t : Int) :
    ∀ m ∈ (lint_function_definitions c t).1, m.type = LintType.FUNCTION_DEFINITIONS := by
  intro m hm
  unfold lint_function_definitions at hm
  split at hm
  · simp at hm
  · simp at hm
    rw [hm]

theorem lint_class_definitions_types (c t : Int) :
    ∀ m ∈ (lint_class_definitions c t).1, m.type = LintType.CLASS_DEFINITIONS := by
  intro m hm
  unfold lint_class_definitions at hm
  split at hm
  · simp at hm
  · simp at hm
    rw [hm]

theorem lint_kernelspec_types (ks : List (String × String)) (req : KSReq)
    (r : List LintMessage × Bool) (h : lint_kernelspec ks req = Except.ok r) :
    ∀ m ∈ r.1, m.type = LintType.KERNELSPEC := by
  intro m hm
  cases req with
  | pyFalse =>
    unfold lint_kernelspec at h
    injection h with h2
    rw [← h2] at hm
    simp at hm
  | pyNone => exact absurd h.symm (fun hh => Except.noConfusion hh)
  | mapping rq =>
    unfold lint_kernelspec at h
    injection h with h2
    rw [← h2] at hm
    simp at hm
    rw [hm]

theorem lint_magics_types (magics : List String) (wl bl : Option (List String))
    (r : List LintMessage × Bool) (h : lint_magics magics wl bl = Except.ok r) :
    ∀ m ∈ r.1, m.type = LintType.MAGICS := by
  intro m hm
  cases wl <;> cases bl <;> unfold lint_magics at h
  · injection h with h2
    rw [← h2] at hm
    simp at hm
  · injection h with h2
    rw [← h2] at hm
    simp at hm
    rw [hm]
  · injection h with h2
    rw [← h2] at hm
    simp at hm
    rw [hm]
  · exact absurd h.symm (fun hh => Except.noConfusion hh)

theorem step_lines_per_cell_shape (extra : Dict) (acc acc' : LintAcc)
    (h : step_lines_per_cell extra acc = Except.ok acc') :
    ∃ new, acc'.1 = acc.1 ++ new ∧ ∀ m ∈ new, m.type = LintType.LINES_PER_CELL := by
  unfold step_lines_per_cell at h
  split at h
  · obtain ⟨mv, _, h⟩ := bind_eq_ok h
    obtain ⟨maxLines, _, h⟩ := bind_eq_ok h
    obtain ⟨cv, _, h⟩ := bind_eq_ok h
    obtain ⟨cellLines, _, h⟩ := bind_eq_ok h
    rw [except_pure] at h
    injection h with h2
    subst h2
    exact ⟨_, rfl, lint_lines_per_cell_types cellLines maxLines⟩
  · rw [except_pure] at h
    injection h with h2
    subst h2
    exact ⟨[], by simp, by simp⟩

theorem step_cells_per_notebook_shape (extra : Dict) (acc acc' : LintAcc)
    (h : step_cells_per_notebook extra acc = Except.ok acc') :
    ∃ new, acc'.1 = acc.1 ++ new ∧ ∀ m ∈ new, m.type = LintType.CELLS_PER_NOTEBOOK := by
  unfold step_cells_per_notebook at h
  split at h
  · obtain ⟨mv, _, h⟩ := bind_eq_ok h
    obtain ⟨maxCells, _, h⟩ := bind_eq_ok h
    obtain ⟨cv, _, h⟩ := bind_eq_ok h
    obtain ⟨cellCount, _, h⟩ := bind_eq_ok h
    rw [except_pure] at h
    injection h with h2
    subst h2
    exact ⟨_, rfl, lint_cells_per_notebook_types cellCount maxCells⟩
  · rw [except_pure] at h
    injection h with h2
    subst h2
    exact ⟨[], by simp, by simp⟩

theorem step_function_definitions_shape (extra : Dict) (acc acc' : LintAcc)
    (h : step_function_definitions extra acc = Except.ok acc') :
    ∃ new, acc'.1 = acc.1 ++ new ∧ ∀ m ∈ new, m.type = LintType.FUNCTION_DEFINITIONS := by
  unfold step_function_definitions at h
  split at h
  · obtain ⟨mv, _, h⟩ := bind_eq_ok h
    obtain ⟨maxFuncs, _, h⟩ := bind_eq_ok h
    obtain ⟨cv, _, h⟩ := bind_eq_ok h
    obtain ⟨funcs, _, h⟩ := bind_eq_ok h
    rw [except_pure] at h
    injection h with h2
    subst h2
    exact ⟨_, rfl, lint_function_definitions_types funcs maxFuncs⟩
  · rw [except_pure] at h
    injection h with h2
    subst h2
    exact ⟨[], by simp, by simp⟩

theorem step_class_definitions_shape (extra : Dict) (acc acc' : LintAcc)
    (h : step_class_definitions extra acc = Except.ok acc') :
    ∃ new, acc'.1 = acc.1 ++ new ∧ ∀ m ∈ new, m.type = LintType.CLASS_DEFINITIONS := by
  unfold step_class_definitions at h
  split at h
  · obtain ⟨mv, _, h⟩ := bind_eq_ok h
    obtain ⟨maxClasses, _, h⟩ := bind_eq_ok h
    obtain ⟨cv, _, h⟩ := bind_eq_ok h
    obtain ⟨classes, _, h⟩ := bind_eq_ok h
    rw [except_pure] at h
    injection h with h2
    subst h2
    exact ⟨_, rfl, lint_class_definitions_types classes maxClasses⟩
  · rw [except_pure] at h
    injection h with h2
    subst h2
    exact ⟨[], by simp, by simp⟩

theorem step_kernelspec_shape (extra : Dict) (acc acc' : LintAcc)
    (h : step_kernelspec extra acc = Except.ok acc') :
    ∃ new, acc'.1 = acc.1 ++ new ∧ ∀ m ∈ new, m.type = LintType.KERNELSPEC := by
  unfold step_kernelspec at h
  split at h
  · obtain ⟨kv, _, h⟩ := bind_eq_ok h
    obtain ⟨ks, _, h⟩ := bind_eq_ok h
    obtain ⟨rv, _, h⟩ := bind_eq_ok h
    obtain ⟨req, _, h⟩ := bind_eq_ok h
    obtain ⟨r, hlk, h⟩ := bind_eq_ok h
    rw [except_pure] at h
    injection h with h2
    subst h2
    exact ⟨_, rfl, lint_kernelspec_types ks req r hlk⟩
  · rw [except_pure] at h
    injection h with h2
    subst h2
    exact ⟨[], by simp, by simp⟩

theorem step_magics_shape (extra : Dict) (acc acc' : LintAcc)
    (h : step_magics extra acc = Except.ok acc') :
    ∃ new, acc'.1 = acc.1 ++ new ∧ ∀ m ∈ new, m.type = LintType.MAGICS := by
  unfold step_magics at h
  split at h
  · obtain ⟨mv, _, h⟩ := bind_eq_ok h
    obtain ⟨magics, _, h⟩ := bind_eq_ok h
    obtain ⟨wl, _, h⟩ := bind_eq_ok h
    obtain ⟨bl, _, h⟩ := bind_eq_ok h
    obtain ⟨r, hlk, h⟩ := bind_eq_ok h
    rw [except_pure] at h
    injection h with h2
    subst h2
    exact ⟨_, rfl, lint_magics_types magics wl bl r hlk⟩
  · rw [except_pure] at h
    injection h with h2
    subst h2
    exact ⟨[], by simp, by simp⟩

/-- Every message accumulated by the six rule blocks carries one of the six
rule types — never `LINTER`. -/
theorem runRules_no_linter (extra : Dict) (acc : LintAcc)
    (h : runRules extra = Except.ok acc) :
    ∀ m ∈ acc.1, m.type ≠ LintType.LINTER := by
  unfold runRules at h
  obtain ⟨a1, h1, h⟩ := bind_eq_ok h
  obtain ⟨a2, h2, h⟩ := bind_eq_ok h
  obtain ⟨a3, h3, h⟩ := bind_eq_ok h
  obtain ⟨a4, h4, h⟩ := bind_eq_ok h
  obtain ⟨a5, h5, h⟩ := bind_eq_ok h
  obtain ⟨n1, e1, t1⟩ := step_lines_per_cell_shape _ _ _ h1
  obtain ⟨n2, e2, t2⟩ := step_cells_per_notebook_shape _ _ _ h2
  obtain ⟨n3, e3, t3⟩ := step_function_definitions_shape _ _ _ h3
  obtain ⟨n4, e4, t4⟩ := step_class_definitions_shape _ _ _ h4
  obtain ⟨n5, e5, t5⟩ := step_kernelspec_shape _ _ _ h5
  obtain ⟨n6, e6, t6⟩ := step_magics_shape _ _ _ h
  intro m hm
  rw [e6, e5, e4, e3, e2, e1] at hm
  simp only [List.mem_append, List.not_mem_nil, false_or] at hm
  rcases hm with ((((hm | hm) | hm) | hm) | hm) | hm
  · rw [t1 m hm]; decide
  · rw [t2 m hm]; decide
  · rw [t3 m hm]; decide
  · rw [t4 m hm]; decide
  · rw [t5 m hm]; decide
  · rw [t6 m hm]; decide

/-- Claim C9: with an external executable, `run` appends exactly one
LINTER-type message with cell index -1 to the rule messages; its passed flag
is true iff the stripped concatenation of the captured stdout and stderr is
empty (the exit status does not exist in the data at all). -/
theorem run_linter_message (extra0 : Dict) (rules? : Option Dict)
    (e : List String) (tf o s : String) (he : e ≠ [])
    (msgs : List LintMessage) (p : Bool) (exe : List String)
    (h : run extra0 rules? e tf o s = Except.ok (msgs, p, exe)) :
    ∃ (msgs0 : List LintMessage) (m : LintMessage),
      run extra0 rules? [] tf "" "" = Except.ok (msgs0, p, []) ∧
      msgs = msgs0 ++ [m] ∧
      (∀ m0 ∈ msgs0, m0.type ≠ LintType.LINTER) ∧
      m.type = LintType.LINTER ∧ m.cell = -1 ∧
      (m.passed = true ↔ pyStrip (o ++ "\t" ++ s) = "") := by
  unfold run at h ⊢
  obtain ⟨d, hm, h⟩ := bind_eq_ok h
  rw [hm, except_bind_ok]
  unfold runFromConfig at h ⊢
  obtain ⟨acc, hr, h⟩ := bind_eq_ok h
  rw [hr, except_bind_ok]
  obtain ⟨ret, passed⟩ := acc
  dsimp only at h ⊢
  have hne : ¬ (e.isEmpty = true) := fun hh => he (List.isEmpty_iff.mp hh)
  rw [if_neg hne, except_pure] at h
  injection h with h2
  simp only [Prod.mk.injEq] at h2
  obtain ⟨hmsgs, hp, hexe⟩ := h2
  refine ⟨ret, _, ?_, hmsgs.symm, runRules_no_linter d (ret, passed) hr, rfl, rfl, ?_⟩
  · simp [except_pure, hp]
  · exact decide_eq_true_iff

theorem run_linter_message_witness :
    (["flake8"] : List String) ≠ [] ∧
    (∃ (msgs0 : List LintMessage) (m : LintMessage),
      run [("noqa", MetaVal.strSet [])] none [] "/tmp/t3.py" "" "" =
        Except.ok (msgs0, true, []) ∧
      [LintMessage.mk (-1) "Checking lint:\nboom" LintType.LINTER false] = msgs0 ++ [m] ∧
      (∀ m0 ∈ msgs0, m0.type ≠ LintType.LINTER) ∧
      m.type = LintType.LINTER ∧ m.cell = -1 ∧
      (m.passed = true ↔ pyStrip ("boom" ++ "\t" ++ "") = "")) :=
  ⟨by decide,
   run_linter_message [("noqa", MetaVal.strSet [])] none ["flake8"] "/tmp/t3.py" "boom" ""
     (by decide) [LintMessage.mk (-1) "Checking lint:\nboom" LintType.LINTER false] true
     ["flake8", "/tmp/t3.py"] (by decide)⟩


theorem dFind_dDel (d : Dict) (k key : String) :
    dFind (dDel d k) key = if key = k then none else dFind d key := by
  induction d with
  | nil => simp [dDel, dFind]
  | cons e rest ih =>
    by_cases h1 : e.1 = k <;> by_cases h2 : key = k <;> by_cases h3 : e.1 = key <;>
      simp_all [dDel, dFind]

theorem dDel_comm (d : Dict) (a b : String) :
    dDel (dDel d a) b = dDel (dDel d b) a := by
  induction d with
  | nil => rfl
  | cons e rest ih =>
    by_cases h1 : e.1 = a <;> by_cases h2 : e.1 = b
    · rw [h1.symm.trans h2]
    · have hab : ¬ (a = b) := fun hh => h2 (h1.trans hh)
      simp [dDel, h1, h2, ih, hab]
    · have hba : ¬ (b = a) := fun hh => h1 (h2.trans hh)
      simp [dDel, h1, h2, ih, hba]
    · simp [dDel, h1, h2, ih]

theorem dDel_idem (d : Dict) (a : String) : dDel (dDel d a) a = dDel d a := by
  induction d with
  | nil => rfl
  | cons e rest ih => by_cases h1 : e.1 = a <;> simp [dDel, h1, ih]

theorem dFind_dSet (d : Dict) (k key : String) (v : MetaVal) :
    dFind (dSet d k v) key = if key = k then some v else dFind d key := by
  by_cases h : key = k
  · simp [dSet, dFind, h]
  · have h2 : ¬ (k = key) := fun hh => h hh.symm
    simp [dSet, dFind, dFind_dDel, h, h2]

theorem dDel_dSet_same (d : Dict) (k : String) (v : MetaVal) :
    dDel (dSet d k v) k = dDel d k := by
  simp [dSet, dDel, dDel_idem]

theorem dDel_dSet_comm (d : Dict) (k k1 : String) (v : MetaVal) (h : k1 ≠ k) :
    dDel (dSet d k1 v) k = dSet (dDel d k) k1 v := by
  simp [dSet, dDel, h, dDel_comm]

theorem dUpdate_cons (d : Dict) (e : String × MetaVal) (rest : Dict) :
    dUpdate d (e :: rest) = dUpdate (dSet d e.1 e.2) rest := rfl

theorem dFind_dUpdate_of_absent (r : Dict) (d : Dict) (key : String)
    (h : dFind r key = none) : dFind (dUpdate d r) key = dFind d key := by
  induction r generalizing d with
  | nil => rfl
  | cons e rest ih =>
    have he : ¬ (e.1 = key) := by
      intro hh
      rw [dFind, if_pos hh] at h
      exact Option.noConfusion h
    have hrest : dFind rest key = none := by
      rwa [dFind, if_neg he] at h
    rw [dUpdate_cons, ih _ hrest, dFind_dSet, if_neg (fun hh => he (Eq.symm hh))]

theorem dFind_dUpdate_dDel (r : Dict) (d : Dict) (k key : String) :
    dFind (dUpdate (dDel d k) (dDel r k)) key =
      if key = k then none else dFind (dUpdate d r) key := by
  induction r generalizing d with
  | nil => simp [dUpdate, dDel, dFind_dDel]
  | cons e rest ih =>
    by_cases h1 : e.1 = k
    · have hdel : dDel (e :: rest) k = dDel rest k := by simp [dDel, h1]
      have hset : dDel (dSet d e.1 e.2) k = dDel d k := by
        rw [h1, dDel_dSet_same]
      rw [hdel, dUpdate_cons, ← hset, ih (dSet d e.1 e.2)]
    · have hdel : dDel (e :: rest) k = e :: dDel rest k := by simp [dDel, h1]
      have hcomm : dSet (dDel d k) e.1 e.2 = dDel (dSet d e.1 e.2) k :=
        (dDel_dSet_comm d k e.1 e.2 h1).symm
      rw [hdel, dUpdate_cons, dUpdate_cons, hcomm, ih (dSet d e.1 e.2)]

theorem dFind_foldl_dDel (l : List String) (d : Dict) (key : String) :
    dFind (l.foldl dDel d) key = if key ∈ l then none else dFind d key := by
  induction l generalizing d with
  | nil => simp
  | cons a rest ih =>
    rw [List.foldl_cons, ih]
    by_cases h1 : key ∈ rest <;> by_cases h2 : key = a <;>
      simp [dFind_dDel, h1, h2, List.mem_cons]

theorem dFind_filter_foldl (noqa : List String) (m : Dict) (key : String) :
    dFind ((noqa.filter (fun r => dMem m r)).foldl dDel m) key =
      if key ∈ noqa then none else dFind m key := by
  rw [dFind_foldl_dDel]
  by_cases h1 : key ∈ noqa
  · by_cases h2 : dMem m key = true
    · simp [List.mem_filter, h1, h2]
    · have h3 : dFind m key = none := by
        cases hf : dFind m key with
        | none => rfl
        | some v => exact absurd (by rw [dMem, hf]; rfl) h2
      simp [List.mem_filter, h1, h2, h3]
  · simp [List.mem_filter, h1]

theorem merged_filtered_ext (m1 m2 : Dict) (noqa : List String) (k : String)
    (hm : ∀ key, dFind m2 key = if key = k then none else dFind m1 key)
    (hk : k ∈ noqa) (key : String) :
    dFind ((noqa.filter (fun r => dMem m1 r)).foldl dDel m1) key =
      dFind ((noqa.filter (fun r => dMem m2 r)).foldl dDel m2) key := by
  rw [dFind_filter_foldl, dFind_filter_foldl, hm key]
  by_cases h1 : key ∈ noqa
  · simp [h1]
  · have h2 : ¬ (key = k) := fun hh => h1 (hh ▸ hk)
    simp [h1, h2]

theorem step_lines_per_cell_ext {d1 d2 : Dict}
    (h : ∀ key, dFind d1 key = dFind d2 key) (acc : LintAcc) :
    step_lines_per_cell d1 acc = step_lines_per_cell d2 acc := by
  unfold step_lines_per_cell
  simp only [dMem, dGet, h]

theorem step_cells_per_notebook_ext {d1 d2 : Dict}
    (h : ∀ key, dFind d1 key = dFind d2 key) (acc : LintAcc) :
    step_cells_per_notebook d1 acc = step_cells_per_notebook d2 acc := by
  unfold step_cells_per_notebook
  simp only [dMem, dGet, h]

theorem step_function_definitions_ext {d1 d2 : Dict}
    (h : ∀ key, dFind d1 key = dFind d2 key) (acc : LintAcc) :
    step_function_definitions d1 acc = step_function_definitions d2 acc := by
  unfold step_function_definitions
  simp only [dMem, dGet, h]

theorem step_class_definitions_ext {d1 d2 : Dict}
    (h : ∀ key, dFind d1 key = dFind d2 key) (acc : LintAcc) :
    step_class_definitions d1 acc = step_class_definitions d2 acc := by
  unfold step_class_definitions
  simp only [dMem, dGet, h]

theorem step_kernelspec_ext {d1 d2 : Dict}
    (h : ∀ key, dFind d1 key = dFind d2 key) (acc : LintAcc) :
    step_kernelspec d1 acc = step_kernelspec d2 acc := by
  unfold step_kernelspec
  simp only [dMem, dGet, h]

theorem step_magics_ext {d1 d2 : Dict}
    (h : ∀ key, dFind d1 key = dFind d2 key) (acc : LintAcc) :
    step_magics d1 acc = step_magics d2 acc := by
  unfold step_magics
  simp only [dMem, dGet, h]

theorem runRules_ext {d1 d2 : Dict} (h : ∀ key, dFind d1 key = dFind d2 key) :
    runRules d1 = runRules d2 := by
  unfold runRules
  simp only [step_lines_per_cell_ext h, step_cells_per_notebook_ext h,
    step_function_definitions_ext h, step_class_definitions_ext h,
    step_kernelspec_ext h, step_magics_ext h]

/-- Claim C3: a rule key that sits in the merged configuration and in the
noqa set is removed after the merge: the whole result of `run` — messages
and overall flag — is the same as if the key (even a caller-supplied one)
had never been present in either input. -/
theorem noqa_suppresses_rule (extra0 rules : Dict) (noqa : List String) (k : String)
    (e : List String) (tf o s : String)
    (hok : dFind extra0 "noqa" = some (MetaVal.strSet noqa))
    (hr : dFind rules "noqa" = none)
    (hk : k ∈ noqa) (hkn : k ≠ "noqa") :
    run extra0 (some rules) e tf o s =
      run (dDel extra0 k) (some (dDel rules k)) e tf o s := by
  have hm1 : dFind (dUpdate extra0 rules) "noqa" = some (MetaVal.strSet noqa) := by
    rw [dFind_dUpdate_of_absent rules extra0 "noqa" hr]; exact hok
  have hmrel : ∀ key, dFind (dUpdate (dDel extra0 k) (dDel rules k)) key =
      if key = k then none else dFind (dUpdate extra0 rules) key :=
    fun key => dFind_dUpdate_dDel rules extra0 k key
  have hm2 : dFind (dUpdate (dDel extra0 k) (dDel rules k)) "noqa" =
      some (MetaVal.strSet noqa) := by
    rw [hmrel "noqa", if_neg (fun hh => hkn hh.symm)]; exact hm1
  have hext := fun key => merged_filtered_ext (dUpdate extra0 rules)
    (dUpdate (dDel extra0 k) (dDel rules k)) noqa k hmrel hk key
  have hc1 : mergedConfig extra0 (some rules) = Except.ok
      ((noqa.filter (fun r => dMem (dUpdate extra0 rules) r)).foldl dDel
        (dUpdate extra0 rules)) := by
    unfold mergedConfig
    simp [Option.getD, dGet, hm1, MetaVal.asStrSet, except_bind_ok, except_pure]
  have hc2 : mergedConfig (dDel extra0 k) (some (dDel rules k)) = Except.ok
      ((noqa.filter (fun r => dMem (dUpdate (dDel extra0 k) (dDel rules k)) r)).foldl dDel
        (dUpdate (dDel extra0 k) (dDel rules k))) := by
    unfold mergedConfig
    simp [Option.getD, dGet, hm2, MetaVal.asStrSet, except_bind_ok, except_pure]
  unfold run
  rw [hc1, hc2, except_bind_ok, except_bind_ok]
  unfold runFromConfig
  rw [runRules_ext hext]

theorem noqa_suppresses_rule_witness :
    dFind [("noqa", MetaVal.strSet ["cells_per_notebook"]), ("cell_count", MetaVal.int 3)]
      "noqa" = some (MetaVal.strSet ["cells_per_notebook"]) ∧
    dFind [("cells_per_notebook", MetaVal.int 0)] "noqa" = none ∧
    "cells_per_notebook" ∈ ["cells_per_notebook"] ∧
    ("cells_per_notebook" : String) ≠ "noqa" ∧
    run [("noqa", MetaVal.strSet ["cells_per_notebook"]), ("cell_count", MetaVal.int 3)]
        (some [("cells_per_notebook", MetaVal.int 0)]) [] "" "" "" =
      run (dDel [("noqa", MetaVal.strSet ["cells_per_notebook"]),
            ("cell_count", MetaVal.int 3)] "cells_per_notebook")
        (some (dDel [("cells_per_notebook", MetaVal.int 0)] "cells_per_notebook"))
        [] "" "" "" :=
  ⟨by decide, by decide, by decide, by decide,
   noqa_suppresses_rule
     [("noqa", MetaVal.strSet ["cells_per_notebook"]), ("cell_count", MetaVal.int 3)]
     [("cells_per_notebook", MetaVal.int 0)]
     ["cells_per_notebook"] "cells_per_notebook" [] "" "" ""
     (by decide) (by decide) (by decide) (by decide)⟩
